import Mathlib

/-!
Verification of the 23andMe extraction core
(`sources/twenty_three_and_me/__init__.py`).

The Python source is shallowly embedded below.  Input streams are lists of
lines (`String`), matching Python file iteration where each yielded line is
nonempty and normally newline-terminated.  External collaborators are
parameters: the bcrypt hash primitive, URL-path extraction, the reference
table (a two-level lookup), and the two canonical header templates (static
assets not part of the source tree).  The Sentry alerting collaborator and
the diagnostic logger are modelled as message lists accumulated in the
cleaning state.  Python exceptions that escape a function are modelled with
`Except`; `None`/missing-key values with `Option`.
-/

namespace TwentyThreeAndMe

/-- Python truthiness for an optional string attribute: `None` and the empty
string are falsy (`if not self.file_url: ...`). -/
def pyTruthy : Option String → Bool
  | none => false
  | some s => s ≠ ""

/-- One entry of the `files` collection passed to `should_update`:
`file_data['metadata']['orig_file_hash']`, with `none` modelling the
`KeyError` case (no stored fingerprint). -/
structure FileData where
  orig_file_hash : Option String
deriving Repr, DecidableEq

/-- Embeds `TwentyThreeAndMeSource.same_orig_file`.  `hashpw` stands for
`bcrypt.hashpw` and `urlPath` for `urlparse.urlparse(...).path`, both
external library calls, passed in as parameters. -/
def same_orig_file (hashpw : String → String → String) (urlPath : String → String)
    (file_url : Option String) (orig_file_hash : String) : Bool :=
  if pyTruthy file_url then
    let url_path := urlPath (file_url.getD "")
    let new_hash := hashpw url_path orig_file_hash
    orig_file_hash == new_hash
  else
    false

/-- The `for file_data in files` loop of `should_update`: returns `true` as
soon as a metadata entry lacks the fingerprint (`KeyError`) or fails
`same_orig_file`; `false` after the loop completes. -/
def should_update_loop (hashpw : String → String → String) (urlPath : String → String)
    (file_url : Option String) : List FileData → Bool
  | [] => false
  | fd :: rest =>
    match fd.orig_file_hash with
    | none => true
    | some h =>
      if !(same_orig_file hashpw urlPath file_url h) then true
      else should_update_loop hashpw urlPath file_url rest

/-- Embeds `TwentyThreeAndMeSource.should_update`:
`if not files: return True`, then the per-file loop, then `return False`. -/
def should_update (hashpw : String → String → String) (urlPath : String → String)
    (file_url : Option String) (files : List FileData) : Bool :=
  if files = [] then true
  else should_update_loop hashpw urlPath file_url files

/-- Embeds the guard at the top of `TwentyThreeAndMeSource.create_files`:
`if not self.input_file: raise Exception('Run with either input_file or
file_url')`.  Returns `true` exactly when the exception is raised.  The
`file_url` argument is carried to show the guard ignores it. -/
def create_files_raises (input_file : Option String) (file_url : Option String) : Bool :=
  !(pyTruthy input_file)

/-! ## The cleaning pass: body-line pattern

`re.match(r'(rs|i)[0-9]+\t[1-9XYM][0-9T]?\t[0-9]+\t[ACGT\-ID][ACGT\-ID]?',
next_line)` is an unanchored-at-the-end prefix match.  The matcher below
transcribes the regex left to right.  Each greedy choice in the regex is
deterministic here because every character class is disjoint from the
character required next (`[0-9]`/`[0-9T]` vs `\t`), and the final optional
class is last, so greedy matching and backtracking search accept exactly
the same strings. -/

/-- `(rs|i)`: consume the identifier prefix. -/
def matchIdAlt : List Char → Option (List Char)
  | 'r' :: 's' :: rest => some rest
  | 'i' :: rest => some rest
  | _ => none

/-- `c?` for a character class `p`: one character of class `p`, greedily. -/
def matchOpt (p : Char → Bool) : List Char → List Char
  | [] => []
  | c :: rest => if p c then rest else c :: rest

/-- A single character of class `p`. -/
def matchOne (p : Char → Bool) : List Char → Option (List Char)
  | [] => none
  | c :: rest => if p c then some rest else none

/-- `p+`: at least one character of class `p`, greedily. -/
def matchPlus (p : Char → Bool) : List Char → Option (List Char)
  | [] => none
  | c :: rest => if p c then some (rest.dropWhile p) else none

/-- A literal character. -/
def matchLit (c : Char) : List Char → Option (List Char)
  | [] => none
  | d :: rest => if d = c then some rest else none

/-- The class `[1-9XYM]` (first chromosome character). -/
def isChromStart (c : Char) : Bool :=
  ('1' ≤ c && c ≤ '9') || c = 'X' || c = 'Y' || c = 'M'

/-- The class `[0-9T]` (optional second chromosome character). -/
def isDigitT (c : Char) : Bool :=
  c.isDigit || c = 'T'

/-- The class `[ACGT\-ID]` (genotype-call characters). -/
def isCallChar (c : Char) : Bool :=
  c = 'A' || c = 'C' || c = 'G' || c = 'T' || c = '-' || c = 'I' || c = 'D'

/-- The whole body-line pattern as a prefix match on the line's characters:
`(rs|i)[0-9]+\t[1-9XYM][0-9T]?\t[0-9]+\t[ACGT\-ID][ACGT\-ID]?`. -/
def bodyLineMatch (l : List Char) : Bool :=
  match matchIdAlt l with
  | none => false
  | some r1 =>
    match matchPlus Char.isDigit r1 with
    | none => false
    | some r2 =>
      match matchLit '\t' r2 with
      | none => false
      | some r3 =>
        match matchOne isChromStart r3 with
        | none => false
        | some r4 =>
          match matchLit '\t' (matchOpt isDigitT r4) with
          | none => false
          | some r5 =>
            match matchPlus Char.isDigit r5 with
            | none => false
            | some r6 =>
              match matchLit '\t' r6 with
              | none => false
              | some r7 => (matchOne isCallChar r7).isSome

/-! ## The cleaning pass: body loop -/

/-- The Sentry message for a malformed body line. -/
def bodyMsg : String := "23andMe body did not conform to expected format."

/-- The Sentry message for a nonconforming header. -/
def headerMsg : String := "23andMe header did not conform to expected format."

/-- State of the body-cleaning loop: lines written to `output` (each element
one `output.write` argument), the `bad_format` flag, the Sentry messages sent
so far, and the lines passed to `logger.warn('Bad format: "%s"', ...)`. -/
structure CleanBodyState where
  output : List String
  badFormat : Bool
  sentryMsgs : List String
  logWarns : List String
deriving Repr, DecidableEq

/-- One iteration of the `while next_line:` body of `clean_raw_23andme`. -/
def cleanBodyStep (st : CleanBodyState) (line : String) : CleanBodyState :=
  if bodyLineMatch line.data then
    { st with output := st.output ++ [line] }
  else if !st.badFormat then
    { st with badFormat := true,
              sentryMsgs := st.sentryMsgs ++ [bodyMsg],
              logWarns := st.logWarns ++ [line] }
  else
    st

/-- The `while next_line:` loop: stops at end of stream (`StopIteration`
sets `next_line = None`) or at a falsy (empty) line. -/
def cleanBodyLoop : List String → CleanBodyState → CleanBodyState
  | [], st => st
  | l :: rest, st =>
    if l = "" then st else cleanBodyLoop rest (cleanBodyStep st l)

/-- The initial state of the body loop. -/
def initBodyState : CleanBodyState :=
  { output := [], badFormat := false, sentryMsgs := [], logWarns := [] }

/-- The body phase of `clean_raw_23andme` (lines after the header block),
including the trailing `if bad_format: self.sentry_log(...)` repetition. -/
def cleanBody (lines : List String) : CleanBodyState :=
  let st := cleanBodyLoop lines initBodyState
  if st.badFormat then { st with sentryMsgs := st.sentryMsgs ++ [bodyMsg] }
  else st

/-! ## The cleaning pass: header block -/

/-- `str.splitlines()` on the line boundaries occurring in this data
(`\n`, `\r\n`, `\r`): terminators are removed and an unterminated final
segment forms a last element; the empty string yields `[]`. -/
def splitlinesAux : List Char → List Char → List (List Char)
  | [], acc => if acc = [] then [] else [acc.reverse]
  | '\r' :: '\n' :: rest, acc => acc.reverse :: splitlinesAux rest []
  | '\r' :: rest, acc => acc.reverse :: splitlinesAux rest []
  | '\n' :: rest, acc => acc.reverse :: splitlinesAux rest []
  | c :: rest, acc => splitlinesAux rest (c :: acc)

/-- `splitlines` lifted to `String`. -/
def splitlines (s : String) : List (List Char) :=
  splitlinesAux s.data []

/-- `line.startswith('#')`. -/
def startsWithHash (s : String) : Bool :=
  match s.data with
  | '#' :: _ => true
  | _ => false

/-- The header-accumulation loop (`while next_line.startswith('#')`):
returns the concatenated `header_lines`, the first non-comment line, and the
remaining stream.  `none` models the uncaught `StopIteration` when the
stream ends inside the header block. -/
def accumulateHeader : List String → Option (String × String × List String)
  | [] => none
  | l :: rest =>
    if startsWithHash l then
      (accumulateHeader rest).map (fun hr => (l ++ hr.1, hr.2.1, hr.2.2))
    else
      some ("", l, rest)

/-- Result of the cleaning pass after the dateline: the chunks written to
`output` (in order) and the messages sent to Sentry (in order), plus the
diagnostic log lines. -/
structure CleanResult where
  output : List String
  sentry : List String
  logWarns : List String
deriving Repr, DecidableEq

/-- Embeds `clean_raw_23andme` from the header-accumulation loop onward
(the dateline stage before it only consumes the first line and optionally
writes a reformatted date comment; it is independent of the header and body
stages modelled here).  `headerV1`/`headerV2` are the contents of the static
template assets `header-v1.txt`/`header-v2.txt`. -/
def cleanAfterDateline (headerV1 headerV2 : String) (lines : List String) :
    Option CleanResult :=
  match accumulateHeader lines with
  | none => none
  | some (headerLines, firstBody, rest) =>
    let headerOk := splitlines headerLines = splitlines headerV1 ∨
                    splitlines headerLines = splitlines headerV2
    let hdrOut : List String := if headerOk then [headerLines] else []
    let hdrSentry : List String := if headerOk then [] else [headerMsg]
    let st := cleanBody (firstBody :: rest)
    some { output := hdrOut ++ st.output,
           sentry := hdrSentry ++ st.sentryMsgs,
           logWarns := st.logWarns }

/-! ## The VCF encoder (`vcf_from_raw_23andme`), per-line processing -/

/-- The whitespace characters stripped by `str.rstrip()` (ASCII). -/
def isPySpace (c : Char) : Bool :=
  c = ' ' || c = '\t' || c = '\n' || c = '\r' || c = '\x0b' || c = '\x0c'

/-- `line.rstrip()`: remove the maximal whitespace suffix. -/
def pyRstrip (l : List Char) : List Char :=
  (l.reverse.dropWhile isPySpace).reverse

/-- `s.split('\t')`: every tab is a separator; `''` yields `['']`. -/
def splitTab : List Char → List (List Char)
  | [] => [[]]
  | c :: rest =>
    if c = '\t' then [] :: splitTab rest
    else
      match splitTab rest with
      | [] => [[c]]
      | x :: xs => (c :: x) :: xs

/-- The class `[ACGT]`. -/
def isACGT (c : Char) : Bool :=
  c = 'A' || c = 'C' || c = 'G' || c = 'T'

/-- A full match of `[ACGT]{1,2}` (both ends anchored). -/
def genotypeCore : List Char → Bool
  | [c] => isACGT c
  | [c, d] => isACGT c && isACGT d
  | _ => false

/-- `re.match(r'^[ACGT]{1,2}$', s)`: in Python `$` also matches just before
a single trailing newline. -/
def genotypeOk (s : List Char) : Bool :=
  genotypeCore s ||
    (match s.getLast? with
     | some '\n' => genotypeCore s.dropLast
     | _ => false)

/-- A one-character Python string, as produced by iterating over `data[3]`. -/
def singletonStr (c : Char) : String :=
  String.mk [c]

/-- `data[0].startswith('rs')`. -/
def startsWithRs (l : List Char) : Bool :=
  match l with
  | 'r' :: 's' :: _ => true
  | _ => false

/-- The alternate-allele accumulation loop of `vcf_from_raw_23andme`:
`for alle in data[3]: if alle != REF and alle not in alt_alleles:
alt_alleles.append(alle)`. -/
def altList (refBase : String) (call : List Char) : List String :=
  call.foldl
    (fun acc c =>
      if singletonStr c ≠ refBase ∧ singletonStr c ∉ acc then acc ++ [singletonStr c]
      else acc)
    []

/-- `list.index` as an `Option`: index of the first occurrence, `none`
modelling the `ValueError` raised when the element is absent. -/
def pyListIndex (l : List String) (x : String) : Option Nat :=
  match l with
  | [] => none
  | y :: ys => if y = x then some 0 else (pyListIndex ys x).map (· + 1)

/-- The list comprehension `[all_alleles.index(x) for x in data[3]]`,
evaluated left to right; `none` models the `ValueError` escaping from the
first failing lookup. -/
def indexAll (alleles : List String) : List Char → Option (List Nat)
  | [] => some []
  | c :: cs =>
    match pyListIndex alleles (singletonStr c), indexAll alleles cs with
    | some i, some is => some (i :: is)
    | _, _ => none

/-- One VCF record as assembled in `vcf_data` (fields in `VCF_FIELDS`
order); `sample` is the `23ANDME_DATA` column. -/
structure VcfData where
  chrom : String
  pos : String
  id : String
  ref : String
  alt : String
  qual : String
  filter : String
  info : String
  format : String
  sample : String
deriving Repr, DecidableEq

/-- The per-line record construction of `vcf_from_raw_23andme` once the four
fields `data[0..3]` exist.  `reference` is the two-level dict loaded from
the reference table asset (`reference[chrom][pos]`, `none` = `KeyError`).
`.ok none` models `continue` (line skipped); `.error` models an uncaught
exception (`ValueError` from `list.index`). -/
def vcfFromFields (reference : String → String → Option String)
    (d0 d1 d2 d3 : List Char) : Except String (Option VcfData) :=
  if genotypeOk d3 then
    match reference (String.mk d1) (String.mk d2) with
    | none => .ok none
    | some refBase =>
      let chrom := if String.mk d1 = "MT" then "M" else String.mk d1
      let pos := String.mk d2
      let idField := if startsWithRs d0 then String.mk d0 else "."
      let alts := altList refBase d3
      let altField := if alts ≠ [] then String.intercalate "," alts else "."
      let infoField := if alts ≠ [] then "." else "END=" ++ pos
      let allAlleles := refBase :: alts
      match indexAll allAlleles d3 with
      | none => .error "ValueError: x not in list"
      | some idxs =>
        .ok (some { chrom := chrom, pos := pos, id := idField, ref := refBase,
                    alt := altField, qual := ".", filter := ".",
                    info := infoField, format := "GT",
                    sample := String.intercalate "/" (idxs.map toString) })
  else
    .ok none

/-- One iteration of the record loop of `vcf_from_raw_23andme`: skip `#`
lines, `data = line.rstrip().split('\t')` (fewer than four fields would
raise `IndexError` at `data[3]`), then build the record. -/
def vcfLine (reference : String → String → Option String) (line : String) :
    Except String (Option VcfData) :=
  if startsWithHash line then .ok none
  else
    match splitTab (pyRstrip line.data) with
    | d0 :: d1 :: d2 :: d3 :: _ => vcfFromFields reference d0 d1 d2 d3
    | _ => .error "IndexError: list index out of range"

/-! ## Change detection: lemmas and claims -/

/-- The `should_update` loop returns `false` exactly when every prior
artifact carries a fingerprint that passes `same_orig_file`. -/
lemma should_update_loop_false_iff (hp : String → String → String) (up : String → String)
    (fu : Option String) (files : List FileData) :
    should_update_loop hp up fu files = false ↔
      ∀ fd ∈ files, ∃ h, fd.orig_file_hash = some h ∧ same_orig_file hp up fu h = true := by
  induction files with
  | nil => simp [should_update_loop]
  | cons fd rest ih =>
    cases hfd : fd.orig_file_hash with
    | none => simp [should_update_loop, hfd]
    | some h =>
      by_cases hs : same_orig_file hp up fu h = true
      · simp [should_update_loop, hfd, hs, ih]
      · simp only [Bool.not_eq_true] at hs
        simp [should_update_loop, hfd, hs]

/-- Claim C4: `should_update` returns `true` on an empty artifact
collection, `true` when any artifact's metadata lacks a stored fingerprint,
`true` when any stored fingerprint fails the `same_orig_file` recomputation
check, and `false` exactly when artifacts exist and every stored
fingerprint passes the check. -/
theorem should_update_spec (hp : String → String → String) (up : String → String)
    (fu : Option String) (files : List FileData) :
    (files = [] → should_update hp up fu files = true) ∧
    ((∃ fd ∈ files, fd.orig_file_hash = none) → should_update hp up fu files = true) ∧
    ((∃ fd ∈ files, ∃ h, fd.orig_file_hash = some h ∧ same_orig_file hp up fu h = false) →
      should_update hp up fu files = true) ∧
    (should_update hp up fu files = false ↔
      files ≠ [] ∧ ∀ fd ∈ files, ∃ h, fd.orig_file_hash = some h ∧
        same_orig_file hp up fu h = true) := by
  by_cases hne : files = []
  · subst hne
    refine ⟨fun _ => rfl, ?_, ?_, ?_⟩ <;> simp [should_update]
  · have hsu : should_update hp up fu files = should_update_loop hp up fu files := by
      simp [should_update, hne]
    refine ⟨fun h => absurd h hne, ?_, ?_, ?_⟩
    · rintro ⟨fd, hmem, hnone⟩
      rw [hsu]
      rcases Bool.eq_false_or_eq_true (should_update_loop hp up fu files) with ht | hf
      · exact ht
      · rcases (should_update_loop_false_iff hp up fu files).mp hf fd hmem with ⟨h, hh, -⟩
        rw [hnone] at hh
        exact absurd hh (by simp)
    · rintro ⟨fd, hmem, h, hh, hfalse⟩
      rw [hsu]
      rcases Bool.eq_false_or_eq_true (should_update_loop hp up fu files) with ht | hf
      · exact ht
      · rcases (should_update_loop_false_iff hp up fu files).mp hf fd hmem with ⟨h', hh', htrue⟩
        rw [hh] at hh'
        cases Option.some.inj hh'
        rw [hfalse] at htrue
        exact absurd htrue (by simp)
    · rw [hsu]
      exact ⟨fun hf => ⟨hne, (should_update_loop_false_iff hp up fu files).mp hf⟩,
             fun hall => (should_update_loop_false_iff hp up fu files).mpr hall.2⟩

/-- Witness for C4 at concrete inputs: a missing fingerprint and an empty
collection both force an update. -/
theorem should_update_spec_witness :
    should_update (fun s t => s ++ t) id (some "/p") [⟨none⟩] = true ∧
    should_update (fun s t => s ++ t) id (some "/p") [] = true :=
  ⟨(should_update_spec (fun s t => s ++ t) id (some "/p") [⟨none⟩]).2.1
      ⟨⟨none⟩, by simp, rfl⟩,
   (should_update_spec (fun s t => s ++ t) id (some "/p") []).1 rfl⟩

/-- Claim C9: with no (or an empty) remote file URL, `same_orig_file` is
`false` for every stored fingerprint, so `should_update` is `true` for
every nonempty artifact collection. -/
theorem no_file_url_forces_update (hp : String → String → String) (up : String → String)
    (fu : Option String) (files : List FileData) (hfu : pyTruthy fu = false) :
    (∀ h, same_orig_file hp up fu h = false) ∧
    (files ≠ [] → should_update hp up fu files = true) := by
  have hsame : ∀ h, same_orig_file hp up fu h = false := by
    intro h
    simp [same_orig_file, hfu]
  refine ⟨hsame, fun hne => ?_⟩
  have hsu : should_update hp up fu files = should_update_loop hp up fu files := by
    simp [should_update, hne]
  rw [hsu]
  rcases Bool.eq_false_or_eq_true (should_update_loop hp up fu files) with ht | hf
  · exact ht
  · rcases files with - | ⟨fd, rest⟩
    · exact absurd rfl hne
    · rcases (should_update_loop_false_iff hp up fu (fd :: rest)).mp hf fd (by simp)
        with ⟨h, -, htrue⟩
      rw [hsame h] at htrue
      exact absurd htrue (by simp)

/-- Witness for C9 at a concrete input: no URL, one artifact with a stored
fingerprint, update still forced. -/
theorem no_file_url_forces_update_witness :
    same_orig_file (fun s t => s ++ t) id none "h1" = false ∧
    should_update (fun s t => s ++ t) id none [⟨some "h1"⟩] = true :=
  ⟨(no_file_url_forces_update (fun s t => s ++ t) id none [⟨some "h1"⟩] rfl).1 "h1",
   (no_file_url_forces_update (fun s t => s ++ t) id none [⟨some "h1"⟩] rfl).2 (by simp)⟩

/-- Claim C3 (code bug): `create_files` raises on a run configured with a
remote `file_url` but no local `input_file`, although its own exception
message says either one suffices.  The guard reads only `input_file`. -/
theorem create_files_guard_ignores_file_url :
    create_files_raises none (some "http://example.com/genome.txt") = true ∧
    pyTruthy (some "http://example.com/genome.txt") = true ∧
    (∀ fu fu', create_files_raises none fu = create_files_raises none fu') :=
  ⟨rfl, by decide, fun _ _ => rfl⟩

/-! ## Cleaning pass: loop characterization lemmas -/

/-- The output written by one body-loop iteration. -/
lemma cleanBodyStep_output (st : CleanBodyState) (l : String) :
    (cleanBodyStep st l).output =
      if bodyLineMatch l.data then st.output ++ [l] else st.output := by
  by_cases h : bodyLineMatch l.data <;> simp only [cleanBodyStep, h] <;>
    first
      | rfl
      | (simp only [if_false, Bool.false_eq_true]; split <;> rfl)

/-- Once `bad_format` is set, the loop only copies matching lines. -/
lemma cleanBodyLoop_bad : ∀ (ls : List String), "" ∉ ls →
    ∀ (st : CleanBodyState), st.badFormat = true →
    cleanBodyLoop ls st =
      { st with output := st.output ++ ls.filter (fun l => bodyLineMatch l.data) } := by
  intro ls
  induction ls with
  | nil => simp [cleanBodyLoop]
  | cons l rest ih =>
    intro h st hb
    have hl : l ≠ "" := by
      intro hcon
      exact h (hcon ▸ List.mem_cons_self l rest)
    have hrest : "" ∉ rest := fun hc => h (List.mem_cons_of_mem l hc)
    rw [cleanBodyLoop, if_neg hl]
    by_cases hm : bodyLineMatch l.data
    · rw [ih hrest (cleanBodyStep st l) (by simp [cleanBodyStep, hm, hb])]
      simp [cleanBodyStep, hm, hb, List.filter_cons]
    · have hstep : cleanBodyStep st l = st := by
        simp [cleanBodyStep, hm, hb]
      rw [hstep, ih hrest st hb]
      simp [List.filter_cons, hm]

/-- Run of the body loop from a clean state (`bad_format` unset): matching
lines are copied in order; the first nonmatching line (if any) sets the
flag, sends one Sentry message, and is the only line logged. -/
lemma cleanBodyLoop_clean : ∀ (ls : List String), "" ∉ ls →
    ∀ (st : CleanBodyState), st.badFormat = false →
    cleanBodyLoop ls st =
      match ls.find? (fun l => !bodyLineMatch l.data) with
      | none => { st with output := st.output ++ ls.filter (fun l => bodyLineMatch l.data) }
      | some b =>
        { output := st.output ++ ls.filter (fun l => bodyLineMatch l.data),
          badFormat := true,
          sentryMsgs := st.sentryMsgs ++ [bodyMsg],
          logWarns := st.logWarns ++ [b] } := by
  intro ls
  induction ls with
  | nil => simp [cleanBodyLoop]
  | cons l rest ih =>
    intro h st hb
    have hl : l ≠ "" := by
      intro hcon
      exact h (hcon ▸ List.mem_cons_self l rest)
    have hrest : "" ∉ rest := fun hc => h (List.mem_cons_of_mem l hc)
    rw [cleanBodyLoop, if_neg hl]
    by_cases hm : bodyLineMatch l.data
    · have hstep : cleanBodyStep st l = { st with output := st.output ++ [l] } := by
        simp [cleanBodyStep, hm]
      rw [hstep, ih hrest _ (by simp [hb])]
      rw [List.find?_cons_of_neg _ (by simp [hm]), List.filter_cons_of_pos (by simp [hm])]
      cases hfind : rest.find? (fun l => !bodyLineMatch l.data) <;> simp
    · have hstep : cleanBodyStep st l =
          { st with badFormat := true,
                    sentryMsgs := st.sentryMsgs ++ [bodyMsg],
                    logWarns := st.logWarns ++ [l] } := by
        simp [cleanBodyStep, hm, hb]
      rw [hstep, cleanBodyLoop_bad rest hrest _ rfl]
      rw [List.find?_cons_of_pos _ (by simp [hm]), List.filter_cons_of_neg (by simp [hm])]

/-- Full characterization of the body phase including the trailing repeated
Sentry report. -/
lemma cleanBody_run (ls : List String) (h : "" ∉ ls) :
    cleanBody ls =
      match ls.find? (fun l => !bodyLineMatch l.data) with
      | none =>
        { output := ls.filter (fun l => bodyLineMatch l.data),
          badFormat := false, sentryMsgs := [], logWarns := [] }
      | some b =>
        { output := ls.filter (fun l => bodyLineMatch l.data),
          badFormat := true, sentryMsgs := [bodyMsg, bodyMsg], logWarns := [b] } := by
  rw [cleanBody, cleanBodyLoop_clean ls h initBodyState rfl]
  cases hfind : ls.find? (fun l => !bodyLineMatch l.data) <;>
    simp [initBodyState]

/-- Counterexample to claim C2 as stated: a run with two malformed body
lines sends the body anomaly to Sentry twice (once at the first failure,
once again after the loop), and logs a diagnostic only for the first
failing line — not for the subsequent one. -/
theorem body_anomaly_counterexample :
    bodyLineMatch "bad1\n".data = false ∧
    bodyLineMatch "bad2\n".data = false ∧
    (cleanBody ["bad1\n", "bad2\n"]).sentryMsgs = [bodyMsg, bodyMsg] ∧
    (cleanBody ["bad1\n", "bad2\n"]).logWarns = ["bad1\n"] := by
  decide

/-- Claim C2 (amended): for every input stream containing at least one
body line failing the structural pattern, the cleaning pass sends the
body-format anomaly to the alerting collaborator exactly twice for the
whole run (regardless of how many lines fail), and emits a diagnostic log
entry only for the first failing line. -/
theorem body_anomaly_reported_twice (ls : List String) (b : String)
    (h : "" ∉ ls) (hfind : ls.find? (fun l => !bodyLineMatch l.data) = some b) :
    (cleanBody ls).sentryMsgs = [bodyMsg, bodyMsg] ∧
    (cleanBody ls).logWarns = [b] := by
  rw [cleanBody_run ls h, hfind]
  exact ⟨rfl, rfl⟩

/-- Witness for C2's amended claim at a concrete input. -/
theorem body_anomaly_reported_twice_witness :
    (cleanBody ["rs9\t4\t77\tGG\n", "x\n", "y\n"]).sentryMsgs = [bodyMsg, bodyMsg] ∧
    (cleanBody ["rs9\t4\t77\tGG\n", "x\n", "y\n"]).logWarns = ["x\n"] :=
  body_anomaly_reported_twice ["rs9\t4\t77\tGG\n", "x\n", "y\n"] "x\n"
    (by decide) (by decide)

/-- Counterexample to claim C1 as stated: a header block matching neither
canonical template is dropped from the cleaned output (not passed through);
only the anomaly report is observable. -/
theorem header_mismatch_counterexample :
    cleanAfterDateline "# a\n" "# b\n" ["# c\n", "rs1\t1\t5\tAA\n"] =
      some { output := ["rs1\t1\t5\tAA\n"], sentry := [headerMsg], logWarns := [] } ∧
    splitlines "# c\n" ≠ splitlines "# a\n" ∧
    splitlines "# c\n" ≠ splitlines "# b\n" ∧
    "# c\n" ∉ ["rs1\t1\t5\tAA\n"] := by
  decide

/-- Claim C1 (amended): when the accumulated header block matches neither
canonical template, the cleaning pass reports exactly one header anomaly to
the alerting collaborator and does NOT write the accumulated header lines:
the output consists exactly of the accepted body lines. -/
theorem header_mismatch_behavior (hv1 hv2 : String) (ls : List String)
    (res : CleanResult) (hdr fb : String) (rest : List String)
    (hacc : accumulateHeader ls = some (hdr, fb, rest))
    (hclean : cleanAfterDateline hv1 hv2 ls = some res)
    (hmm1 : splitlines hdr ≠ splitlines hv1)
    (hmm2 : splitlines hdr ≠ splitlines hv2)
    (hne : "" ∉ fb :: rest) :
    res.output = (fb :: rest).filter (fun l => bodyLineMatch l.data) ∧
    res.sentry.head? = some headerMsg ∧
    res.sentry.count headerMsg = 1 := by
  rw [cleanAfterDateline, hacc] at hclean
  simp only [Option.some.injEq] at hclean
  rw [if_neg (by simp [hmm1, hmm2]), if_neg (by simp [hmm1, hmm2])] at hclean
  subst hclean
  have hbody := cleanBody_run (fb :: rest) hne
  have hcount : ((cleanBody (fb :: rest)).sentryMsgs.count headerMsg) = 0 := by
    rw [hbody]
    cases hfind : (fb :: rest).find? (fun l => !bodyLineMatch l.data) <;>
      simp [List.count_cons, bodyMsg, headerMsg]
  refine ⟨?_, ?_, ?_⟩
  · rw [hbody]
    cases hfind : (fb :: rest).find? (fun l => !bodyLineMatch l.data) <;> simp
  · simp
  · simp [List.count_cons, hcount]

/-- Witness for C1's amended claim at a concrete input. -/
theorem header_mismatch_behavior_witness :
    ({ output := ["rs2\t2\t6\tCC\n"], sentry := [headerMsg], logWarns := [] } :
        CleanResult).output =
      (["rs2\t2\t6\tCC\n"] : List String).filter (fun l => bodyLineMatch l.data) ∧
    ({ output := ["rs2\t2\t6\tCC\n"], sentry := [headerMsg], logWarns := [] } :
        CleanResult).sentry.head? = some headerMsg ∧
    ({ output := ["rs2\t2\t6\tCC\n"], sentry := [headerMsg], logWarns := [] } :
        CleanResult).sentry.count headerMsg = 1 :=
  header_mismatch_behavior "# a\n" "# b\n" ["# d\n", "rs2\t2\t6\tCC\n"]
    { output := ["rs2\t2\t6\tCC\n"], sentry := [headerMsg], logWarns := [] }
    "# d\n" "rs2\t2\t6\tCC\n" []
    (by decide) (by decide) (by decide) (by decide) (by decide)

/-! ## Matcher lemmas: decomposition and reassembly of accepted lines -/

lemma matchIdAlt_sound (l r : List Char) (h : matchIdAlt l = some r) :
    l = 'r' :: 's' :: r ∨ l = 'i' :: r := by
  unfold matchIdAlt at h
  split at h
  · injection h with h'
    subst h'
    exact Or.inl rfl
  · injection h with h'
    subst h'
    exact Or.inr rfl
  · exact absurd h (by simp)

lemma matchPlus_sound (p : Char → Bool) (l r : List Char) (h : matchPlus p l = some r) :
    ∃ d, l = d ++ r ∧ d ≠ [] ∧ ∀ c ∈ d, p c = true := by
  cases l with
  | nil => simp [matchPlus] at h
  | cons c rest =>
    simp only [matchPlus] at h
    by_cases hc : p c = true
    · rw [if_pos hc] at h
      injection h with h'
      refine ⟨c :: rest.takeWhile p, ?_, by simp, ?_⟩
      · rw [← h']
        simp [List.takeWhile_append_dropWhile]
      · intro x hx
        rcases List.mem_cons.mp hx with rfl | hx'
        · exact hc
        · exact List.mem_takeWhile_imp hx'
    · rw [if_neg hc] at h
      exact absurd h (by simp)

lemma matchLit_sound (c : Char) (l r : List Char) (h : matchLit c l = some r) :
    l = c :: r := by
  cases l with
  | nil => simp [matchLit] at h
  | cons d rest =>
    simp only [matchLit] at h
    by_cases hd : d = c
    · rw [if_pos hd] at h
      injection h with h'
      rw [hd, h']
    · rw [if_neg hd] at h
      exact absurd h (by simp)

lemma matchOne_sound (p : Char → Bool) (l r : List Char) (h : matchOne p l = some r) :
    ∃ c, l = c :: r ∧ p c = true := by
  cases l with
  | nil => simp [matchOne] at h
  | cons c rest =>
    simp only [matchOne] at h
    by_cases hc : p c = true
    · rw [if_pos hc] at h
      injection h with h'
      exact ⟨c, by rw [h'], hc⟩
    · rw [if_neg hc] at h
      exact absurd h (by simp)

lemma dropWhile_append_stop (p : Char → Bool) (u v : List Char) (c : Char)
    (hc : p c = false) :
    List.dropWhile p (u ++ c :: v) = List.dropWhile p u ++ c :: v := by
  induction u with
  | nil => simp [List.dropWhile_cons, hc]
  | cons a u' ih =>
    by_cases ha : p a = true
    · simpa [List.dropWhile_cons, ha] using ih
    · simp [List.dropWhile_cons, ha]

lemma matchPlus_complete (p : Char → Bool) (d t : List Char) (c : Char)
    (hd : d ≠ []) (hall : ∀ x ∈ d, p x = true) (hc : p c = false) :
    matchPlus p (d ++ c :: t) = some (c :: t) := by
  cases d with
  | nil => exact absurd rfl hd
  | cons a d' =>
    have ha : p a = true := hall a (by simp)
    have hd' : ∀ x ∈ d', p x = true := fun x hx => hall x (by simp [hx])
    rw [List.cons_append, matchPlus, if_pos ha, dropWhile_append_stop p d' t c hc,
        List.dropWhile_eq_nil_iff.mpr hd', List.nil_append]

/-- The decomposed form of a line accepted by the body pattern. -/
lemma bodyLineMatch_shape (l : List Char) (h : bodyLineMatch l = true) :
    ∃ idc d1 ch chOpt d2 c1 rest,
      l = idc ++ (d1 ++ ('\t' :: (ch :: (chOpt ++ ('\t' :: (d2 ++ ('\t' :: (c1 :: rest)))))))) ∧
      (idc = ['r', 's'] ∨ idc = ['i']) ∧
      d1 ≠ [] ∧ (∀ c ∈ d1, c.isDigit = true) ∧
      isChromStart ch = true ∧
      (chOpt = [] ∨ ∃ x, chOpt = [x] ∧ isDigitT x = true) ∧
      d2 ≠ [] ∧ (∀ c ∈ d2, c.isDigit = true) ∧
      isCallChar c1 = true := by
  unfold bodyLineMatch at h
  cases h1 : matchIdAlt l with
  | none => rw [h1] at h; exact absurd h (by simp)
  | some r1 =>
  rw [h1] at h
  simp only [] at h
  cases h2 : matchPlus Char.isDigit r1 with
  | none => rw [h2] at h; exact absurd h (by simp)
  | some r2 =>
  rw [h2] at h
  simp only [] at h
  cases h3 : matchLit '\t' r2 with
  | none => rw [h3] at h; exact absurd h (by simp)
  | some r3 =>
  rw [h3] at h
  simp only [] at h
  cases h4 : matchOne isChromStart r3 with
  | none => rw [h4] at h; exact absurd h (by simp)
  | some r4 =>
  rw [h4] at h
  simp only [] at h
  cases h5 : matchLit '\t' (matchOpt isDigitT r4) with
  | none => rw [h5] at h; exact absurd h (by simp)
  | some r5 =>
  rw [h5] at h
  simp only [] at h
  cases h6 : matchPlus Char.isDigit r5 with
  | none => rw [h6] at h; exact absurd h (by simp)
  | some r6 =>
  rw [h6] at h
  simp only [] at h
  cases h7 : matchLit '\t' r6 with
  | none => rw [h7] at h; exact absurd h (by simp)
  | some r7 =>
  rw [h7] at h
  simp only [] at h
  cases h8 : matchOne isCallChar r7 with
  | none => rw [h8] at h; exact absurd h (by simp)
  | some r8 =>
  -- Extract the pieces.
  obtain ⟨d1, hr1, hd1ne, hd1all⟩ := matchPlus_sound _ _ _ h2
  have hr2 := matchLit_sound _ _ _ h3
  obtain ⟨ch, hr3, hch⟩ := matchOne_sound _ _ _ h4
  obtain ⟨d2, hr5, hd2ne, hd2all⟩ := matchPlus_sound _ _ _ h6
  have hr6 := matchLit_sound _ _ _ h7
  obtain ⟨c1, hr7, hc1⟩ := matchOne_sound _ _ _ h8
  -- Resolve the optional chromosome character.
  have hopt : ∃ chOpt, r4 = chOpt ++ ('\t' :: r5) ∧
      (chOpt = [] ∨ ∃ x, chOpt = [x] ∧ isDigitT x = true) := by
    have h5' := matchLit_sound _ _ _ h5
    cases r4 with
    | nil => simp [matchOpt] at h5'
    | cons x xs =>
      simp only [matchOpt] at h5'
      by_cases hx : isDigitT x = true
      · rw [if_pos hx] at h5'
        exact ⟨[x], by simp [h5'], Or.inr ⟨x, rfl, hx⟩⟩
      · rw [if_neg hx] at h5'
        obtain ⟨hx', hxs⟩ := List.cons.inj h5'
        exact ⟨[], by simp [hx', hxs], Or.inl rfl⟩
  obtain ⟨chOpt, hr4, hoptp⟩ := hopt
  rcases matchIdAlt_sound _ _ h1 with hl | hl
  · refine ⟨['r', 's'], d1, ch, chOpt, d2, c1, r8,
      ?_, Or.inl rfl, hd1ne, hd1all, hch, hoptp, hd2ne, hd2all, hc1⟩
    rw [hl, hr1, hr2, hr3, hr4, hr5, hr6, hr7]
    simp
  · refine ⟨['i'], d1, ch, chOpt, d2, c1, r8,
      ?_, Or.inr rfl, hd1ne, hd1all, hch, hoptp, hd2ne, hd2all, hc1⟩
    rw [hl, hr1, hr2, hr3, hr4, hr5, hr6, hr7]
    simp

/-- Reassembly: every line of the decomposed form is accepted by the body
pattern, whatever follows the first genotype-call character. -/
lemma bodyLineMatch_of_shape (idc d1 chOpt d2 rest : List Char) (ch c1 : Char)
    (hidc : idc = ['r', 's'] ∨ idc = ['i'])
    (hd1 : d1 ≠ []) (hd1all : ∀ c ∈ d1, c.isDigit = true)
    (hch : isChromStart ch = true)
    (hopt : chOpt = [] ∨ ∃ x, chOpt = [x] ∧ isDigitT x = true)
    (hd2 : d2 ≠ []) (hd2all : ∀ c ∈ d2, c.isDigit = true)
    (hc1 : isCallChar c1 = true) :
    bodyLineMatch
      (idc ++ (d1 ++ ('\t' :: (ch :: (chOpt ++ ('\t' :: (d2 ++ ('\t' :: (c1 :: rest))))))))) =
      true := by
  have htd : Char.isDigit '\t' = false := by decide
  have h1 : matchIdAlt
      (idc ++ (d1 ++ ('\t' :: (ch :: (chOpt ++ ('\t' :: (d2 ++ ('\t' :: (c1 :: rest))))))))) =
      some (d1 ++ ('\t' :: (ch :: (chOpt ++ ('\t' :: (d2 ++ ('\t' :: (c1 :: rest)))))))) := by
    rcases hidc with rfl | rfl <;> rfl
  have h2 : matchPlus Char.isDigit
      (d1 ++ ('\t' :: (ch :: (chOpt ++ ('\t' :: (d2 ++ ('\t' :: (c1 :: rest)))))))) =
      some ('\t' :: (ch :: (chOpt ++ ('\t' :: (d2 ++ ('\t' :: (c1 :: rest))))))) :=
    matchPlus_complete Char.isDigit d1
      (ch :: (chOpt ++ ('\t' :: (d2 ++ ('\t' :: (c1 :: rest)))))) '\t' hd1 hd1all htd
  have h3 : matchLit '\t'
      ('\t' :: (ch :: (chOpt ++ ('\t' :: (d2 ++ ('\t' :: (c1 :: rest))))))) =
      some (ch :: (chOpt ++ ('\t' :: (d2 ++ ('\t' :: (c1 :: rest)))))) := by
    simp [matchLit]
  have h4 : matchOne isChromStart
      (ch :: (chOpt ++ ('\t' :: (d2 ++ ('\t' :: (c1 :: rest)))))) =
      some (chOpt ++ ('\t' :: (d2 ++ ('\t' :: (c1 :: rest))))) := by
    simp [matchOne, hch]
  have h5 : matchOpt isDigitT (chOpt ++ ('\t' :: (d2 ++ ('\t' :: (c1 :: rest))))) =
      '\t' :: (d2 ++ ('\t' :: (c1 :: rest))) := by
    have htab : isDigitT '\t' = false := by decide
    rcases hopt with rfl | ⟨x, rfl, hx⟩
    · simp [matchOpt, htab]
    · simp [matchOpt, hx]
  have h6 : matchLit '\t' ('\t' :: (d2 ++ ('\t' :: (c1 :: rest)))) =
      some (d2 ++ ('\t' :: (c1 :: rest))) := by
    simp [matchLit]
  have h7 : matchPlus Char.isDigit (d2 ++ ('\t' :: (c1 :: rest))) =
      some ('\t' :: (c1 :: rest)) :=
    matchPlus_complete Char.isDigit d2 (c1 :: rest) '\t' hd2 hd2all htd
  have h8 : matchLit '\t' ('\t' :: (c1 :: rest)) = some (c1 :: rest) := by
    simp [matchLit]
  have h9 : matchOne isCallChar (c1 :: rest) = some rest := by
    simp [matchOne, hc1]
  simp only [bodyLineMatch, h1, h2, h3, h4, h5, h6, h7, h8, h9, Option.isSome_some]

/-! ## Field extraction: every accepted line splits into at least four
tab-separated fields after `rstrip` -/

lemma splitTab_ne_nil (l : List Char) : splitTab l ≠ [] := by
  cases l with
  | nil => simp [splitTab]
  | cons c rest =>
    simp only [splitTab]
    split
    · simp
    · split <;> simp

lemma splitTab_append_tabfree (a r : List Char) (ha : ∀ c ∈ a, c ≠ '\t') :
    splitTab (a ++ '\t' :: r) = a :: splitTab r := by
  induction a with
  | nil => simp [splitTab]
  | cons c a' ih =>
    have hc : c ≠ '\t' := ha c (by simp)
    have ha' : ∀ x ∈ a', x ≠ '\t' := fun x hx => ha x (by simp [hx])
    rw [List.cons_append, splitTab, if_neg hc, ih ha']

lemma pyRstrip_append (a rest : List Char) (c : Char) (hc : isPySpace c = false) :
    pyRstrip (a ++ c :: rest) = a ++ c :: pyRstrip rest := by
  unfold pyRstrip
  rw [List.reverse_append, List.reverse_cons, List.append_assoc,
      List.singleton_append, dropWhile_append_stop isPySpace rest.reverse a.reverse c hc,
      List.reverse_append, List.reverse_cons, List.reverse_reverse, List.append_assoc,
      List.singleton_append]

lemma isCallChar_not_space (c : Char) (h : isCallChar c = true) : isPySpace c = false := by
  unfold isCallChar at h
  rcases Bool.or_eq_true_iff.mp h with h' | h'
  rotate_left
  · rw [decide_eq_true_iff.mp h']; decide
  rcases Bool.or_eq_true_iff.mp h' with h'' | h''
  rotate_left
  · rw [decide_eq_true_iff.mp h'']; decide
  rcases Bool.or_eq_true_iff.mp h'' with h3 | h3
  rotate_left
  · rw [decide_eq_true_iff.mp h3]; decide
  rcases Bool.or_eq_true_iff.mp h3 with h4 | h4
  rotate_left
  · rw [decide_eq_true_iff.mp h4]; decide
  rcases Bool.or_eq_true_iff.mp h4 with h5 | h5
  rotate_left
  · rw [decide_eq_true_iff.mp h5]; decide
  rcases Bool.or_eq_true_iff.mp h5 with h6 | h6
  · rw [decide_eq_true_iff.mp h6]; decide
  · rw [decide_eq_true_iff.mp h6]; decide

lemma isCallChar_ne_tab (c : Char) (h : isCallChar c = true) : c ≠ '\t' := by
  intro hc
  subst hc
  exact absurd h (by decide)

lemma isDigit_ne_tab (c : Char) (h : c.isDigit = true) : c ≠ '\t' := by
  intro hc
  subst hc
  exact absurd h (by decide)

lemma isChromStart_ne_tab (c : Char) (h : isChromStart c = true) : c ≠ '\t' := by
  intro hc
  subst hc
  exact absurd h (by decide)

lemma isDigitT_ne_tab (c : Char) (h : isDigitT c = true) : c ≠ '\t' := by
  intro hc
  subst hc
  exact absurd h (by decide)

/-- Every line accepted by the body pattern begins with `r` or `i` and,
after `rstrip`, splits on tabs into at least four fields. -/
lemma bodyLineMatch_fields (l : List Char) (h : bodyLineMatch l = true) :
    (l.head? = some 'r' ∨ l.head? = some 'i') ∧
    ∃ d0 d1 d2 d3 rest, splitTab (pyRstrip l) = d0 :: d1 :: d2 :: d3 :: rest := by
  obtain ⟨idc, d1, ch, chOpt, d2, c1, rest, hl, hidc, -, hd1all, hch, hoptp, -, hd2all, hc1⟩ :=
    bodyLineMatch_shape l h
  subst hl
  constructor
  · rcases hidc with rfl | rfl <;> simp
  · -- Reassociate so the first genotype-call character is the boundary for
    -- `rstrip`, then split the three leading tab-free fields.
    have hassoc :
        idc ++ (d1 ++ ('\t' :: (ch :: (chOpt ++ ('\t' :: (d2 ++ ('\t' :: (c1 :: rest)))))))) =
        ((idc ++ d1) ++ ('\t' :: ((ch :: chOpt) ++ ('\t' :: (d2 ++ ['\t']))))) ++ c1 :: rest := by
      simp
    rw [hassoc, pyRstrip_append _ _ _ (isCallChar_not_space c1 hc1)]
    have h0 : ∀ c ∈ idc ++ d1, c ≠ '\t' := by
      intro c hc
      rcases List.mem_append.mp hc with hc' | hc'
      · rcases hidc with rfl | rfl <;>
          (simp at hc'; rcases hc' with rfl | rfl <;> decide)
      · exact isDigit_ne_tab c (hd1all c hc')
    have h1 : ∀ c ∈ ch :: chOpt, c ≠ '\t' := by
      intro c hc
      rcases List.mem_cons.mp hc with rfl | hc'
      · exact isChromStart_ne_tab c hch
      · rcases hoptp with rfl | ⟨x, rfl, hx⟩
        · simp at hc'
        · rw [List.mem_singleton.mp hc']
          exact isDigitT_ne_tab x hx
    have h2 : ∀ c ∈ d2, c ≠ '\t' := fun c hc => isDigit_ne_tab c (hd2all c hc)
    have hassoc2 :
        ((idc ++ d1) ++ ('\t' :: ((ch :: chOpt) ++ ('\t' :: (d2 ++ ['\t']))))) ++ c1 :: pyRstrip rest =
        (idc ++ d1) ++ ('\t' :: ((ch :: chOpt) ++ ('\t' :: (d2 ++ ('\t' :: (c1 :: pyRstrip rest)))))) := by
      simp
    rw [hassoc2, splitTab_append_tabfree _ _ h0, splitTab_append_tabfree _ _ h1,
        splitTab_append_tabfree _ _ h2]
    have hc1tab : c1 ≠ '\t' := isCallChar_ne_tab c1 hc1
    cases hsp : splitTab (pyRstrip rest) with
    | nil => exact absurd hsp (splitTab_ne_nil _)
    | cons x xs =>
      refine ⟨idc ++ d1, ch :: chOpt, d2, c1 :: x, xs, ?_⟩
      rw [splitTab, if_neg hc1tab, hsp]

/-- Acceptance by the body pattern is stable under appending trailing
characters: the regex is unanchored at the end. -/
lemma bodyLineMatch_append (l t : List Char) (h : bodyLineMatch l = true) :
    bodyLineMatch (l ++ t) = true := by
  obtain ⟨idc, d1, ch, chOpt, d2, c1, rest, hl, hidc, hd1ne, hd1all, hch, hoptp,
    hd2ne, hd2all, hc1⟩ := bodyLineMatch_shape l h
  subst hl
  have hassoc :
      (idc ++ (d1 ++ ('\t' :: (ch :: (chOpt ++ ('\t' :: (d2 ++ ('\t' :: (c1 :: rest))))))))) ++ t =
      idc ++ (d1 ++ ('\t' :: (ch :: (chOpt ++ ('\t' :: (d2 ++ ('\t' :: (c1 :: (rest ++ t))))))))) := by
    simp
  rw [hassoc]
  exact bodyLineMatch_of_shape idc d1 chOpt d2 (rest ++ t) ch c1 hidc hd1ne hd1all
    hch hoptp hd2ne hd2all hc1

/-- The documented chromosome tokens `1`–`22`, `X`, `Y`, `MT`. -/
def specChromTokens : List (List Char) :=
  [['1'], ['2'], ['3'], ['4'], ['5'], ['6'], ['7'], ['8'], ['9'], ['1', '0'],
   ['1', '1'], ['1', '2'], ['1', '3'], ['1', '4'], ['1', '5'], ['1', '6'], ['1', '7'],
   ['1', '8'], ['1', '9'], ['2', '0'], ['2', '1'], ['2', '2'], ['X'], ['Y'], ['M', 'T']]

/-- Modelled from the spec: the body-line pattern as the spec and claim C7
describe it — the line (up to an optional trailing newline) is exactly
`(rsid|internal-id) TAB chromosome TAB position TAB genotype-call`, with
chromosome drawn from 1–22, X, Y, MT (optionally T-suffixed) and the
genotype call exactly one or two characters from {A,C,G,T,-,I,D}.  This is
a comparison definition for the refinement claim, not a transcription of
the source regex. -/
def specBodyPattern (l : List Char) : Bool :=
  let core := match l.getLast? with
    | some '\n' => l.dropLast
    | _ => l
  match splitTab core with
  | [a, b, c, d] =>
    (match a with
     | 'r' :: 's' :: ds => !ds.isEmpty && ds.all Char.isDigit
     | 'i' :: ds => !ds.isEmpty && ds.all Char.isDigit
     | _ => false) &&
    specChromTokens.any (fun tok => b == tok || b == tok ++ ['T']) &&
    (!c.isEmpty && c.all Char.isDigit) &&
    (d.all isCallChar && (d.length = 1 || d.length = 2))
  | _ => false

/-- Counterexample to claim C7 as stated: the source pattern is a prefix
match with chromosome class `[1-9XYM][0-9T]?`, so a line with chromosome
`99` (not among 1–22, X, Y, MT) and a line with a three-character genotype
call are both copied although they do not match the documented pattern. -/
theorem body_pattern_counterexample :
    bodyLineMatch "rs1\t99\t123\tAA\n".data = true ∧
    specBodyPattern "rs1\t99\t123\tAA\n".data = false ∧
    (cleanBody ["rs1\t99\t123\tAA\n"]).output = ["rs1\t99\t123\tAA\n"] ∧
    bodyLineMatch "rs2\t1\t5\tAAA\n".data = true ∧
    specBodyPattern "rs2\t1\t5\tAAA\n".data = false := by
  decide

/-- Claim C7 (amended): a body line is copied to the cleaned output —
verbatim and in original order — if and only if its leading characters
match the source regex `(rs|i)[0-9]+ TAB [1-9XYM][0-9T]? TAB [0-9]+ TAB
call-char call-char?` (a prefix match, with a chromosome class looser than
the documented 1–22/X/Y/MT set); no accepted line is mutated. -/
theorem cleaned_body_output (ls : List String) (h : "" ∉ ls) :
    (cleanBody ls).output = ls.filter (fun l => bodyLineMatch l.data) := by
  rw [cleanBody_run ls h]
  cases hfind : ls.find? (fun l => !bodyLineMatch l.data) <;> simp

/-- Witness for C7's amended claim at a concrete input. -/
theorem cleaned_body_output_witness :
    (cleanBody ["rs3\t3\t9\tCT\n", "oops\n"]).output =
      (["rs3\t3\t9\tCT\n", "oops\n"] : List String).filter
        (fun l => bodyLineMatch l.data) :=
  cleaned_body_output ["rs3\t3\t9\tCT\n", "oops\n"] (by decide)

/-- Claim C10: body-line acceptance is a prefix match: any accepted line
stays accepted with arbitrary trailing characters appended and is copied
verbatim, and chromosome tokens outside the documented set (`99`, `XT`,
`M3`) are accepted by the pattern. -/
theorem body_pattern_prefix_acceptance :
    (∀ (l t : List Char), bodyLineMatch l = true → bodyLineMatch (l ++ t) = true) ∧
    bodyLineMatch "rs1\t99\t1\tAA".data = true ∧
    bodyLineMatch "rs1\tXT\t1\tAA".data = true ∧
    bodyLineMatch "rs1\tM3\t1\tAA".data = true ∧
    (∀ (ls : List String) (l : String), "" ∉ ls → l ∈ ls →
      bodyLineMatch l.data = true → l ∈ (cleanBody ls).output) := by
  refine ⟨bodyLineMatch_append, by decide, by decide, by decide, ?_⟩
  intro ls l h hm hb
  rw [cleanBody_run ls h]
  cases hfind : ls.find? (fun l => !bodyLineMatch l.data) <;>
    exact List.mem_filter.mpr ⟨hm, by simp [hb]⟩

/-- Witness for C10 at concrete inputs. -/
theorem body_pattern_prefix_acceptance_witness :
    bodyLineMatch ("rs77\t5\t42\tAC".data ++ "\tmore stuff".data) = true ∧
    "i55\t20\t9\tDD\n" ∈ (cleanBody ["i55\t20\t9\tDD\n"]).output :=
  ⟨body_pattern_prefix_acceptance.1 "rs77\t5\t42\tAC".data "\tmore stuff".data
      (by decide),
   body_pattern_prefix_acceptance.2.2.2.2 ["i55\t20\t9\tDD\n"] "i55\t20\t9\tDD\n"
      (by decide) (by decide) (by decide)⟩

/-- A line accepted by the body pattern never begins with `#`. -/
lemma startsWithHash_of_body (line : String)
    (h : line.data.head? = some 'r' ∨ line.data.head? = some 'i') :
    startsWithHash line = false := by
  simp only [startsWithHash]
  cases hl : line.data with
  | nil => rfl
  | cons c cs =>
    rw [hl] at h
    rcases h with h | h <;> (simp at h; subst h; rfl)

/-- Claim C8: a body line that passed the cleaning pattern but whose
(chromosome, position) pair has no entry in the reference table produces no
VCF record and raises no exception, while the line still appears in the
cleaned raw output. -/
theorem reference_miss_skips_record (reference : String → String → Option String)
    (line : String) (ls : List String)
    (h1 : bodyLineMatch line.data = true)
    (h2 : ∀ d0 d1 d2 d3 rest,
      splitTab (pyRstrip line.data) = d0 :: d1 :: d2 :: d3 :: rest →
      reference (String.mk d1) (String.mk d2) = none)
    (h3 : line ∈ ls) (h4 : "" ∉ ls) :
    vcfLine reference line = Except.ok none ∧ line ∈ (cleanBody ls).output := by
  obtain ⟨hhead, d0, d1, d2, d3, rest, hsplit⟩ := bodyLineMatch_fields line.data h1
  constructor
  · have hhash := startsWithHash_of_body line hhead
    simp only [vcfLine, hhash, Bool.false_eq_true, if_false]
    rw [hsplit]
    simp only []
    unfold vcfFromFields
    by_cases hg : genotypeOk d3 = true
    · rw [if_pos hg, h2 d0 d1 d2 d3 rest hsplit]
    · rw [if_neg hg]
  · rw [cleanBody_run ls h4]
    cases hfind : ls.find? (fun l => !bodyLineMatch l.data) <;>
      exact List.mem_filter.mpr ⟨h3, by simp [h1]⟩

/-- Witness for C8 at a concrete input: an empty reference table. -/
theorem reference_miss_skips_record_witness :
    vcfLine (fun _ _ => none) "rs1\t1\t5\tAA\n" = Except.ok none ∧
    "rs1\t1\t5\tAA\n" ∈ (cleanBody ["rs1\t1\t5\tAA\n"]).output :=
  reference_miss_skips_record (fun _ _ => none) "rs1\t1\t5\tAA\n" ["rs1\t1\t5\tAA\n"]
    (by decide) (fun _ _ _ _ _ _ => rfl) (by decide) (by decide)

/-! ## Alternate-allele list: duplicate-free, first-occurrence order -/

/-- Keep the first occurrence of each element, in order. -/
def dedupFirst : List String → List String
  | [] => []
  | x :: xs => x :: dedupFirst (xs.filter (fun y => y ≠ x))
termination_by l => l.length
decreasing_by
  simp only [List.length_cons]
  exact Nat.lt_succ_of_le (List.length_filter_le _ _)

lemma mem_dedupFirst (l : List String) (a : String) : a ∈ dedupFirst l ↔ a ∈ l := by
  induction l using dedupFirst.induct with
  | case1 => simp [dedupFirst]
  | case2 x xs ih =>
    rw [dedupFirst]
    by_cases hax : a = x
    · simp [hax]
    · rw [List.mem_cons, ih, List.mem_filter, List.mem_cons]
      simp [hax]

lemma nodup_dedupFirst (l : List String) : (dedupFirst l).Nodup := by
  induction l using dedupFirst.induct with
  | case1 => simp [dedupFirst]
  | case2 x xs ih =>
    rw [dedupFirst]
    refine List.nodup_cons.mpr ⟨?_, ih⟩
    intro hx
    have := List.mem_filter.mp ((mem_dedupFirst _ _).mp hx)
    simp at this

lemma altList_go (r : String) (s : List Char) (acc : List String) :
    List.foldl
      (fun acc c =>
        if singletonStr c ≠ r ∧ singletonStr c ∉ acc then acc ++ [singletonStr c] else acc)
      acc s =
    acc ++ dedupFirst
      (((s.map singletonStr).filter (fun a => a ≠ r)).filter (fun a => a ∉ acc)) := by
  induction s generalizing acc with
  | nil => simp [dedupFirst]
  | cons c s' ih =>
    rw [List.map_cons, List.foldl_cons]
    by_cases hra : singletonStr c ≠ r ∧ singletonStr c ∉ acc
    · rw [if_pos hra, ih]
      rw [List.filter_cons_of_pos (by simp [hra.1]), List.filter_cons_of_pos (by simp [hra.2])]
      rw [dedupFirst]
      have hfe :
          ((s'.map singletonStr).filter (fun a => a ≠ r)).filter
              (fun a => a ∉ acc ++ [singletonStr c]) =
          (((s'.map singletonStr).filter (fun a => a ≠ r)).filter
              (fun a => a ∉ acc)).filter (fun a => a ≠ singletonStr c) := by
        simp only [List.filter_filter]
        apply List.filter_congr
        intro x _
        by_cases h1 : x = r <;> by_cases h2 : x ∈ acc <;>
          by_cases h3 : x = singletonStr c <;>
          simp [h1, h2, h3, List.mem_append]
      rw [hfe]
      simp
    · rw [if_neg hra, ih]
      have : singletonStr c = r ∨ singletonStr c ∈ acc := by
        by_cases h1 : singletonStr c = r
        · exact Or.inl h1
        · exact Or.inr (by_contra fun h2 => hra ⟨h1, h2⟩)
      rcases this with hcr | hca
      · rw [List.filter_cons_of_neg (by simp [hcr])]
      · by_cases hcr : singletonStr c = r
        · rw [List.filter_cons_of_neg (by simp [hcr])]
        · rw [List.filter_cons_of_pos (by simp [hcr]), List.filter_cons_of_neg (by simp [hca])]

/-- The alternate-allele loop computes exactly the duplicate-free,
first-occurrence-ordered list of non-reference call characters. -/
lemma altList_eq (r : String) (s : List Char) :
    altList r s = dedupFirst ((s.map singletonStr).filter (fun a => a ≠ r)) := by
  have h := altList_go r s []
  rw [altList, h]
  have : ((s.map singletonStr).filter (fun a => a ≠ r)).filter
      (fun a => a ∉ ([] : List String)) =
      (s.map singletonStr).filter (fun a => a ≠ r) := by
    apply List.filter_eq_self.mpr
    intro x _
    simp
  rw [this, List.nil_append]

/-- Every character of the genotype call is found in `[ref] + alt`. -/
lemma call_mem_alleles (r : String) (s : List Char) (c : Char) (hc : c ∈ s) :
    singletonStr c ∈ r :: altList r s := by
  by_cases hr : singletonStr c = r
  · simp [hr]
  · refine List.mem_cons.mpr (Or.inr ?_)
    rw [altList_eq, mem_dedupFirst]
    exact List.mem_filter.mpr ⟨List.mem_map_of_mem _ hc, by simp [hr]⟩

lemma pyListIndex_of_mem (l : List String) (x : String) (h : x ∈ l) :
    ∃ i, pyListIndex l x = some i ∧ i < l.length := by
  induction l with
  | nil => simp at h
  | cons y ys ih =>
    by_cases hy : y = x
    · exact ⟨0, by simp [pyListIndex, hy], by simp⟩
    · have hx : x ∈ ys := by
        rcases List.mem_cons.mp h with h' | h'
        · exact absurd h'.symm hy
        · exact h'
      obtain ⟨i, hi, hlt⟩ := ih hx
      exact ⟨i + 1, by simp [pyListIndex, hy, hi], by simpa using Nat.succ_lt_succ hlt⟩

/-- When every call character occurs among the alleles, every index lookup
succeeds and every resulting index is in bounds. -/
lemma indexAll_spec (A : List String) (s : List Char)
    (h : ∀ c ∈ s, singletonStr c ∈ A) :
    ∃ idxs, indexAll A s = some idxs ∧ ∀ i ∈ idxs, i < A.length := by
  induction s with
  | nil => exact ⟨[], rfl, by simp⟩
  | cons c cs ih =>
    obtain ⟨i, hi, hlt⟩ := pyListIndex_of_mem A (singletonStr c) (h c (by simp))
    obtain ⟨idxs, hidxs, hall⟩ := ih (fun x hx => h x (by simp [hx]))
    refine ⟨i :: idxs, by rw [indexAll, hi, hidxs], ?_⟩
    intro j hj
    rcases List.mem_cons.mp hj with rfl | hj'
    · exact hlt
    · exact hall j hj'

/-! ## Inversion of the per-line VCF record construction -/

/-- A record produced by `vcfFromFields` determines every field: the
reference lookup succeeded, the index lookups all succeeded, and the record
is exactly the one assembled in the source. -/
lemma vcfFromFields_inv (reference : String → String → Option String)
    (d0 d1 d2 d3 : List Char) (r : VcfData)
    (h : vcfFromFields reference d0 d1 d2 d3 = Except.ok (some r)) :
    genotypeOk d3 = true ∧
    reference (String.mk d1) (String.mk d2) = some r.ref ∧
    ∃ idxs, indexAll (r.ref :: altList r.ref d3) d3 = some idxs ∧
      r = { chrom := if String.mk d1 = "MT" then "M" else String.mk d1,
            pos := String.mk d2,
            id := if startsWithRs d0 then String.mk d0 else ".",
            ref := r.ref,
            alt := if altList r.ref d3 ≠ [] then
                     String.intercalate "," (altList r.ref d3) else ".",
            qual := ".", filter := ".",
            info := if altList r.ref d3 ≠ [] then "." else "END=" ++ String.mk d2,
            format := "GT",
            sample := String.intercalate "/" (idxs.map toString) } := by
  unfold vcfFromFields at h
  by_cases hg : genotypeOk d3 = true
  case neg =>
    rw [if_neg hg] at h
    exact absurd h (by simp)
  rw [if_pos hg] at h
  cases href : reference (String.mk d1) (String.mk d2) with
  | none =>
    rw [href] at h
    exact absurd h (by simp)
  | some refBase =>
    rw [href] at h
    simp only [] at h
    cases hidx : indexAll (refBase :: altList refBase d3) d3 with
    | none =>
      rw [hidx] at h
      exact absurd h (by simp)
    | some idxs =>
      rw [hidx] at h
      simp only [Except.ok.injEq, Option.some.injEq] at h
      subst h
      exact ⟨hg, rfl, idxs, hidx, rfl⟩

/-- Link `vcfLine` back to `vcfFromFields` on a parsed line. -/
lemma vcfLine_inv (reference : String → String → Option String) (line : String)
    (r : VcfData) (d0 d1 d2 d3 : List Char) (fr : List (List Char))
    (hparse : splitTab (pyRstrip line.data) = d0 :: d1 :: d2 :: d3 :: fr)
    (hrec : vcfLine reference line = Except.ok (some r)) :
    vcfFromFields reference d0 d1 d2 d3 = Except.ok (some r) := by
  unfold vcfLine at hrec
  by_cases hh : startsWithHash line = true
  · rw [if_pos hh] at hrec
    exact absurd hrec (by simp)
  · rw [if_neg hh, hparse] at hrec
    simp only [] at hrec
    exact hrec

/-- Claim C5: for every body line accepted into VCF output, the alt list is
the ordered, duplicate-free list of non-reference call characters (first
occurrence order); empty alt list gives `ALT='.'` and `INFO='END=<pos>'`,
nonempty gives the comma-joined alts and `INFO='.'`. -/
theorem vcf_alt_construction (reference : String → String → Option String)
    (line : String) (r : VcfData) (d0 d1 d2 d3 : List Char) (fr : List (List Char))
    (hparse : splitTab (pyRstrip line.data) = d0 :: d1 :: d2 :: d3 :: fr)
    (hrec : vcfLine reference line = Except.ok (some r)) :
    altList r.ref d3 = dedupFirst ((d3.map singletonStr).filter (fun a => a ≠ r.ref)) ∧
    (altList r.ref d3).Nodup ∧
    (altList r.ref d3 = [] → r.alt = "." ∧ r.info = "END=" ++ r.pos) ∧
    (altList r.ref d3 ≠ [] →
      r.alt = String.intercalate "," (altList r.ref d3) ∧ r.info = ".") := by
  obtain ⟨-, -, idxs, -, hr⟩ :=
    vcfFromFields_inv reference d0 d1 d2 d3 r (vcfLine_inv reference line r d0 d1 d2 d3 fr hparse hrec)
  refine ⟨altList_eq r.ref d3, by rw [altList_eq]; exact nodup_dedupFirst _, ?_, ?_⟩
  · intro hnil
    rw [hr]
    simp [hnil]
  · intro hne
    rw [hr]
    simp [hne]

/-- Claim C6: for every body line accepted into VCF output, every call
character occurs in `[ref] + alt` (so the index lookup never fails), every
index is within bounds, and the sample field is the `/`-joined index
sequence in call order. -/
theorem vcf_genotype_indexing (reference : String → String → Option String)
    (line : String) (r : VcfData) (d0 d1 d2 d3 : List Char) (fr : List (List Char))
    (hparse : splitTab (pyRstrip line.data) = d0 :: d1 :: d2 :: d3 :: fr)
    (hrec : vcfLine reference line = Except.ok (some r)) :
    (∀ c ∈ d3, singletonStr c ∈ r.ref :: altList r.ref d3) ∧
    ∃ idxs, indexAll (r.ref :: altList r.ref d3) d3 = some idxs ∧
      (∀ i ∈ idxs, i < (r.ref :: altList r.ref d3).length) ∧
      r.sample = String.intercalate "/" (idxs.map toString) := by
  obtain ⟨-, -, idxs, hidx, hr⟩ :=
    vcfFromFields_inv reference d0 d1 d2 d3 r (vcfLine_inv reference line r d0 d1 d2 d3 fr hparse hrec)
  have hmem : ∀ c ∈ d3, singletonStr c ∈ r.ref :: altList r.ref d3 :=
    fun c hc => call_mem_alleles r.ref d3 c hc
  obtain ⟨idxs2, hidx2, hb⟩ := indexAll_spec (r.ref :: altList r.ref d3) d3 hmem
  rw [hidx] at hidx2
  cases Option.some.inj hidx2
  refine ⟨hmem, idxs, hidx, hb, ?_⟩
  rw [hr]

/-- A concrete one-entry reference table: `(1, 1000) ↦ A`. -/
def refC5 : String → String → Option String :=
  fun c p => if c = "1" ∧ p = "1000" then some "A" else none

/-- The record produced for `rs123 1 1000 AG` against `refC5`. -/
def recC5 : VcfData :=
  { chrom := "1", pos := "1000", id := "rs123", ref := "A", alt := "G",
    qual := ".", filter := ".", info := ".", format := "GT", sample := "0/1" }

/-- Witness for C5 at a concrete accepted line. -/
theorem vcf_alt_construction_witness :
    altList recC5.ref "AG".data =
      dedupFirst (("AG".data.map singletonStr).filter (fun a => a ≠ recC5.ref)) ∧
    (altList recC5.ref "AG".data).Nodup ∧
    (altList recC5.ref "AG".data = [] →
      recC5.alt = "." ∧ recC5.info = "END=" ++ recC5.pos) ∧
    (altList recC5.ref "AG".data ≠ [] →
      recC5.alt = String.intercalate "," (altList recC5.ref "AG".data) ∧
      recC5.info = ".") :=
  vcf_alt_construction refC5 "rs123\t1\t1000\tAG\n" recC5
    "rs123".data "1".data "1000".data "AG".data [] (by decide) (by rfl)

/-- A concrete one-entry reference table: `(MT, 50) ↦ C`. -/
def refC6 : String → String → Option String :=
  fun c p => if c = "MT" ∧ p = "50" then some "C" else none

/-- The record produced for `rs999 MT 50 CC` against `refC6`. -/
def recC6 : VcfData :=
  { chrom := "M", pos := "50", id := "rs999", ref := "C", alt := ".",
    qual := ".", filter := ".", info := "END=50", format := "GT", sample := "0/0" }

/-- Witness for C6 at a concrete accepted line. -/
theorem vcf_genotype_indexing_witness :
    (∀ c ∈ "CC".data, singletonStr c ∈ recC6.ref :: altList recC6.ref "CC".data) ∧
    ∃ idxs, indexAll (recC6.ref :: altList recC6.ref "CC".data) "CC".data = some idxs ∧
      (∀ i ∈ idxs, i < (recC6.ref :: altList recC6.ref "CC".data).length) ∧
      recC6.sample = String.intercalate "/" (idxs.map toString) :=
  vcf_genotype_indexing refC6 "rs999\tMT\t50\tCC\n" recC6
    "rs999".data "MT".data "50".data "CC".data [] (by decide) (by rfl)

end TwentyThreeAndMe
